import Mathlib

/-
Verification development for the PLONK prover core of this repository.

The embedding covers the two source files:
  src/pairing/plonk/src/prover.rs       (ProverProof::create)
  src/circuits/plonk/src/gates/generic.rs  (CircuitGate::verify_generic and accessors)

Modelling conventions:
  * The scalar field E::Fr is an abstract field F (instantiated with ZMod p in
    concrete evaluations).  Rust's batch_inversion leaves zero entries at zero,
    which coincides with Lean's convention (0 : F)⁻¹ = 0, so batch inversion is
    an elementwise inverse.
  * DensePolynomial is a raw coefficient list (index i = coefficient of X^i).
    We do not maintain Rust's trailing-zero trimming invariant; `is_zero` on a
    polynomial is therefore the all-coefficients-zero test, which agrees with
    the trimmed representation's emptiness test.
  * The external collaborators (spec section 1 declares them out of scope) are
    parameters: `interp` stands for Evaluations::interpolate on the domain,
    `cm` for URS commit, `opn` for URS open, `ab`/`ch`/`s0` for the FqSponge
    absorb, challenge and initial state, and `rng` for the RngCore sample
    stream (the prover draws exactly nine samples, rng 0 .. rng 8).
  * Rust's panicking index `witness[i]` is modelled with List.getD; the checked
    variants below (returning Option) make the panic branch explicit as `none`
    and are proved unreachable under the bounds preconditions (claim C10).
-/

namespace PlonkSpec

variable {F : Type} [Field F] [DecidableEq F]
variable {G S : Type}

instance : Fact (Nat.Prime 5) := ⟨by norm_num⟩

instance : Fact (Nat.Prime 11) := ⟨by norm_num⟩

instance instDecEqExcept {ε α : Type} [DecidableEq ε] [DecidableEq α] :
    DecidableEq (Except ε α)
  | .error a, .error b =>
    if h : a = b then .isTrue (h ▸ rfl)
    else .isFalse (fun hc => h (Except.error.inj hc))
  | .error _, .ok _ => .isFalse (fun hc => Except.noConfusion hc)
  | .ok _, .error _ => .isFalse (fun hc => Except.noConfusion hc)
  | .ok a, .ok b =>
    if h : a = b then .isTrue (h ▸ rfl)
    else .isFalse (fun hc => h (Except.ok.inj hc))

/-! Section: Dense polynomial arithmetic over coefficient lists -/

/-- Coefficientwise polynomial addition (ff_fft DensePolynomial Add), without
trailing-zero trimming. -/
def polyAdd : List F → List F → List F
  | [], q => q
  | p, [] => p
  | a :: p, b :: q => (a + b) :: polyAdd p q

/-- Polynomial negation. -/
def polyNeg (p : List F) : List F := p.map (fun a => -a)

/-- Polynomial subtraction. -/
def polySub (p q : List F) : List F := polyAdd p (polyNeg q)

/-- Scaling a polynomial by a scalar (DensePolynomial::scale). -/
def scale (k : F) (p : List F) : List F := p.map (fun a => k * a)

/-- Polynomial multiplication (convolution). -/
def polyMul : List F → List F → List F
  | [], _ => []
  | a :: p, q => polyAdd (scale a q) (0 :: polyMul p q)

/-- Horner evaluation (DensePolynomial::evaluate). -/
def evalP (p : List F) (x : F) : F := p.foldr (fun c acc => c + x * acc) 0

/-- The vanishing polynomial Z_H(X) = X^n - 1 of the size-n domain. -/
def vanishing (n : Nat) : List F := -1 :: (List.replicate (n - 1) 0 ++ [1])

/-- Sum of the coefficients of p at indices i, i+n, i+2n, ... -/
def strideSum (p : List F) (i n : Nat) : F :=
  ((List.range ((p.length - i) / n + 1)).map (fun j => p.getD (i + j * n) 0)).sum

/-- Quotient and remainder of division by X^n - 1
(DensePolynomial::divide_by_vanishing_poly).  Since X^n is congruent to 1,
remainder coefficient i collects every coefficient of p at i modulo n, and
quotient coefficient k collects the coefficients strictly above degree k at
stride n. -/
def vanDiv (p : List F) (n : Nat) : List F × List F :=
  ((List.range (p.length - n)).map (fun k => strideSum p (k + n) n),
   (List.range (min n p.length)).map (fun i => strideSum p i n))

/-- The zero test used on the division remainder (DensePolynomial::is_zero). -/
def polyIsZero (p : List F) : Bool := p.all (fun c => decide (c = 0))

/-! Section: Generic gate (src/circuits/plonk/src/gates/generic.rs) -/

/-- Modelled from the spec: the gate kind tag from the circuits crate's gate
module, which is not under src/.  The spec gives typ in {Generic, ...}; the
single constructor `other` stands for every non-Generic kind. -/
inductive GateType : Type
  | Generic : GateType
  | other : GateType
deriving DecidableEq

/-- Modelled from the spec: one row of the trace, from the circuits crate's
gate module (not under src/).  Wire references l, r, o are (row, column)
pairs; only the row (.1 here plays Rust's .0) is read by the generic verifier;
c is the coefficient vector, of length 5 for Generic gates. -/
structure CircuitGate (F : Type) : Type where
  typ : GateType
  l : Nat × Nat
  r : Nat × Nat
  o : Nat × Nat
  c : List F

/-- CircuitGate::create_generic. -/
def create_generic (l r o : Nat × Nat) (ql qr qo qm qc : F) : CircuitGate F :=
  ⟨GateType.Generic, l, r, o, [ql, qr, qo, qm, qc]⟩

/-- CircuitGate::ql. -/
def qlF (g : CircuitGate F) : F :=
  if g.typ = GateType.Generic then g.c.getD 0 0 else 0

/-- CircuitGate::qr. -/
def qrF (g : CircuitGate F) : F :=
  if g.typ = GateType.Generic then g.c.getD 1 0 else 0

/-- CircuitGate::qo. -/
def qoF (g : CircuitGate F) : F :=
  if g.typ = GateType.Generic then g.c.getD 2 0 else 0

/-- CircuitGate::qm. -/
def qmF (g : CircuitGate F) : F :=
  if g.typ = GateType.Generic then g.c.getD 3 0 else 0

/-- CircuitGate::qc. -/
def qcF (g : CircuitGate F) : F :=
  if g.typ = GateType.Generic then g.c.getD 4 0 else 0

/-- CircuitGate::verify_generic.  Rust indexes witness[self.l.0] etc.; here
the row index of a wire pair is its first component. -/
def verify_generic (g : CircuitGate F) (w : List F) : Bool :=
  decide (g.typ = GateType.Generic) &&
  decide (qlF g * w.getD g.l.1 0 +
          qrF g * w.getD g.r.1 0 +
          qoF g * w.getD g.o.1 0 +
          qmF g * w.getD g.l.1 0 * w.getD g.r.1 0 +
          qcF g = 0)

/-- Checked counterpart of verify_generic: every witness access uses the
bounds-checked lookup, so the Rust panic branch appears as `none`. -/
def verify_genericChk (g : CircuitGate F) (w : List F) : Option Bool :=
  match w[g.l.1]?, w[g.r.1]?, w[g.o.1]? with
  | some wl, some wr, some wo =>
      some (decide (g.typ = GateType.Generic) &&
            decide (qlF g * wl + qrF g * wr + qoF g * wo +
                    qmF g * wl * wr + qcF g = 0))
  | _, _, _ => none

/-! Section: Prover data model (src/pairing/plonk/src/prover.rs) -/

/-- Modelled from the spec: the error type oracle::rndoracle::ProofError is
not under src/.  Spec section 7 names PolyDivision and commitment errors such
as SrsTooSmall; `srsTooSmall` stands for the latter family. -/
inductive ProofError : Type
  | polyDivision : ProofError
  | srsTooSmall : ProofError
deriving DecidableEq

/-- Modelled from the spec: the gate row as consumed by the pairing prover
(prover.rs reads gate.l, gate.r, gate.o directly as witness row indices). -/
structure PGate : Type where
  l : Nat
  r : Nat
  o : Nat

/-- The slice of the Index read by ProverProof::create: domain size n and
generator w (omega), coset scalars r (k1) and o (k2), the public input count,
the gate rows, the sigma evaluations on H (index.cs.sigma), the identity
evaluations on H (index.cs.sid), the sigma polynomials (index.sigma), and the
selector polynomials (index.ql .. index.qc). -/
structure PIndex (F : Type) : Type where
  n : Nat
  w : F
  r : F
  o : F
  public : Nat
  gates : List PGate
  sigma1E : List F
  sigma2E : List F
  sigma3E : List F
  sid : List F
  sigmaP1 : List F
  sigmaP2 : List F
  sigmaP3 : List F
  qlP : List F
  qrP : List F
  qoP : List F
  qmP : List F
  qcP : List F

/-- ProofEvaluations. -/
structure PEvals (F : Type) : Type where
  a : F
  b : F
  c : F
  sigma1 : F
  sigma2 : F
  r : F
  z : F
deriving DecidableEq

/-- ProverProof: the record returned by create. -/
structure PProof (F G : Type) : Type where
  aComm : G
  bComm : G
  cComm : G
  zComm : G
  tlowComm : G
  tmidComm : G
  thghComm : G
  proof1 : G
  proof2 : G
  evals : PEvals F
  publicPart : List F
deriving DecidableEq

/-- Gate row lookup index.cs.gates[j] (gate indexing is not witness
indexing; the default row is irrelevant for the claims). -/
def gateAt (gates : List PGate) (j : Nat) : PGate := gates.getD j ⟨0, 0, 0⟩

/-! Section: Witness columns and permutation evaluations -/

/-- Round 1 left column: gates.iter().map(witness[gate.l]). -/
def colA (wit : List F) (gates : List PGate) : List F :=
  gates.map (fun g => wit.getD g.l 0)

/-- Round 1 right column: gates.iter().map(index.cs.r * witness[gate.r]). -/
def colB (wit : List F) (gates : List PGate) (k1 : F) : List F :=
  gates.map (fun g => k1 * wit.getD g.r 0)

/-- Round 1 output column: gates.iter().map(index.cs.o * witness[gate.o]). -/
def colC (wit : List F) (gates : List PGate) (k2 : F) : List F :=
  gates.map (fun g => k2 * wit.getD g.o 0)

/-- Round 2 denominators, j = 1 .. n-1 (prover.rs lines 87-93). -/
def denList (wit : List F) (gates : List PGate) (s1E s2E s3E : List F)
    (beta gamma : F) (n : Nat) : List F :=
  (List.range' 1 (n - 1)).map (fun j =>
    (wit.getD (gateAt gates j).l 0 + s1E.getD j 0 * beta + gamma) *
    (wit.getD (gateAt gates j).r 0 + s2E.getD j 0 * beta + gamma) *
    (wit.getD (gateAt gates j).o 0 + s3E.getD j 0 * beta + gamma))

/-- Round 2 numerators, j = 1 .. n-1 (prover.rs lines 96-102). -/
def numList (wit : List F) (gates : List PGate) (sid : List F)
    (beta gamma k1 k2 : F) (n : Nat) : List F :=
  (List.range' 1 (n - 1)).map (fun j =>
    (wit.getD (gateAt gates j).l 0 + sid.getD j 0 * beta + gamma) *
    (wit.getD (gateAt gates j).r 0 + sid.getD j 0 * beta * k1 + gamma) *
    (wit.getD (gateAt gates j).o 0 + sid.getD j 0 * beta * k2 + gamma))

/-- The in-place pass over coeffs, after the head: each cell becomes
nums[i] * (previous updated cell * invd[i]) — exactly
coeffs[i] *= coeffs[i-1] * denominators[i] read left to right. -/
def gpAux (acc : F) : List (F × F) → List F
  | [] => []
  | (x, d) :: t => x * (acc * d) :: gpAux (x * (acc * d)) t

/-- The loop (1..coeffs.len()).for_each(|i| coeffs[i] *= coeffs[i-1] *
denominators[i]) of prover.rs line 103: cell 0 keeps nums[0] unchanged, and
cell i pairs with the inverted denominator at the same index i, so invd[0] is
never consumed. -/
def gpLoop (nums invd : List F) : List F :=
  match nums with
  | [] => []
  | x :: xs => x :: gpAux x (xs.zip (invd.drop 1))

/-- The z evaluation vector on H before interpolation and blinding
(prover.rs lines 87-104): batch-inverted denominators (batch_inversion leaves
zeros at zero, matching 0⁻¹ = 0), the grand-product loop, then
coeffs.insert(0, one). -/
def permEvals (wit : List F) (gates : List PGate) (s1E s2E s3E sid : List F)
    (beta gamma k1 k2 : F) (n : Nat) : List F :=
  let invd := (denList wit gates s1E s2E s3E beta gamma n).map (fun d => d⁻¹)
  1 :: gpLoop (numList wit gates sid beta gamma k1 k2 n) invd

/-- The polynomial standing in for z(omega X) inside t3 (prover.rs lines
139-140): z's coefficients from index 1 zipped with the sid evaluations. -/
def zipShift (zc sid : List F) : List F :=
  ((zc.drop 1).zip sid).map (fun p => p.1 * p.2)

/-! Section: The prover pipeline -/

/-- Everything create computes up to the quotient candidate t: wire and
permutation polynomials, their commitments, the sponge state after absorbing
the z commitment, the challenges beta, gamma, alpha, and t itself. -/
structure StA (F G S : Type) : Type where
  a : List F
  b : List F
  c : List F
  z : List F
  beta : F
  gamma : F
  alpha : F
  alpsq : F
  publicPart : List F
  t4 : List F
  t : List F
  ca : G
  cb : G
  cc : G
  cz : G
  sp : S

/-- The full run record of a successful create: all intermediates the
remaining rounds produce, plus the commitment and opening results. -/
structure Run (F G S : Type) : Type where
  a : List F
  b : List F
  c : List F
  z : List F
  beta : F
  gamma : F
  alpha : F
  zeta : F
  zeta2 : F
  zeta3 : F
  v : F
  publicPart : List F
  t4 : List F
  t : List F
  tlow : List F
  tmid : List F
  thgh : List F
  rPoly : List F
  openPolys1 : List (List F)
  evals : PEvals F
  ca : G
  cb : G
  cc : G
  cz : G
  ctl : G
  ctm : G
  cth : G
  pf1 : G
  pf2 : G

/-- Rounds 1-3 of ProverProof::create (prover.rs lines 55-143): wire
polynomials with their degree-(n+1) blinders, the first three commits, the
sponge absorptions and the beta/gamma/alpha draws, the permutation polynomial
z with its degree-(n+2) blinder and its commit, the public input polynomial,
and the four quotient parts summed into t. -/
def stageT (cm : List F → Except ProofError G) (interp : List F → List F)
    (ab : S → List G → S) (ch : S → F × S) (s0 : S)
    (wit : List F) (idx : PIndex F) (rng : Nat → F) :
    Except ProofError (StA F G S) :=
  let n := idx.n
  let a := polyAdd (interp (colA wit idx.gates))
    (polyMul [rng 1, rng 0] (vanishing n))
  let b := polyAdd (interp (colB wit idx.gates idx.r))
    (polyMul [rng 3, rng 2] (vanishing n))
  let c := polyAdd (interp (colC wit idx.gates idx.o))
    (polyMul [rng 5, rng 4] (vanishing n))
  match cm a with
  | .error e => .error e
  | .ok ca =>
  match cm b with
  | .error e => .error e
  | .ok cb =>
  match cm c with
  | .error e => .error e
  | .ok cc =>
  let s1 := ab s0 [ca, cb, cc]
  let (beta, s2) := ch s1
  let (gamma, s3) := ch s2
  let z := polyAdd
    (interp (permEvals wit idx.gates idx.sigma1E idx.sigma2E idx.sigma3E
      idx.sid beta gamma idx.r idx.o n))
    (polyMul [rng 8, rng 7, rng 6] (vanishing n))
  match cm z with
  | .error e => .error e
  | .ok cz =>
  let s4 := ab s3 [cz]
  let (alpha, s5) := ch s4
  let alpsq := alpha ^ 2
  let pubPart := wit.take idx.public
  let p := interp pubPart
  let t1 := polyAdd (polyAdd (polyAdd (polyAdd (polyAdd
    (polyMul a (polyMul b idx.qmP)) (polyMul a idx.qlP))
    (polyMul b idx.qrP)) (polyMul c idx.qoP)) p) idx.qcP
  let t2 := scale alpha (polyMul (polyMul (polyMul
    (polyAdd a [gamma, beta])
    (polyAdd b [gamma, beta * idx.r]))
    (polyAdd c [gamma, beta * idx.o])) z)
  let t3 := scale alpha (polyMul (polyMul (polyMul
    (polyAdd (polyAdd a [gamma]) idx.sigmaP1)
    (polyAdd (polyAdd b [gamma]) idx.sigmaP2))
    (polyAdd (polyAdd c [gamma]) idx.sigmaP3)) (zipShift z idx.sid))
  let t4 := polyMul (polySub z [1]) (List.replicate n alpsq)
  let t := polyAdd (polySub (polyAdd t1 t2) t3) t4
  .ok ⟨a, b, c, z, beta, gamma, alpha, alpsq, pubPart, t4, t, ca, cb, cc, cz, s5⟩

/-- Rounds 4-5 of ProverProof::create (prover.rs lines 149-229), entered with
the quotient tq: the three chunks and their commits, the zeta draw with
zeta2 = zeta^n and zeta3 = zeta2^n, the evaluations, the linearisation
polynomial, the v draw, and the two opening calls. -/
def stage3 (cm : List F → Except ProofError G)
    (opn : List (List F) → F → F → Except ProofError G)
    (ab : S → List G → S) (ch : S → F × S)
    (idx : PIndex F) (st : StA F G S) (tq : List F) :
    Except ProofError (Run F G S) :=
  let n := idx.n
  let tlow := tq.take n
  let tmid := (tq.drop n).take n
  let thgh := tq.drop (2 * n)
  match cm tlow with
  | .error e => .error e
  | .ok ctl =>
  match cm tmid with
  | .error e => .error e
  | .ok ctm =>
  match cm thgh with
  | .error e => .error e
  | .ok cth =>
  let s6 := ab st.sp [ctl, ctm, cth]
  let (zeta, s7) := ch s6
  let zeta2 := zeta ^ n
  let zeta3 := zeta2 ^ n
  let ea := evalP st.a zeta
  let eb := evalP st.b zeta
  let ec := evalP st.c zeta
  let es1 := evalP idx.sigmaP1 zeta
  let es2 := evalP idx.sigmaP2 zeta
  let ez := evalP st.z (zeta * idx.w)
  let r1 := polyAdd (polyAdd (polyAdd (polyAdd
    (scale (ea * eb) idx.qmP) (scale ea idx.qlP))
    (scale eb idx.qrP)) (scale ec idx.qoP)) idx.qcP
  let r2 := scale ((ea + st.beta * ez + st.gamma) *
    (eb + st.beta * idx.r * ez + st.gamma) *
    (ec + st.beta * idx.o * ez + st.gamma) * st.alpha) st.z
  let r3 := scale ((ea + st.beta * es1 + st.gamma) *
    (eb + st.beta * es2 + st.gamma) *
    (st.beta * ez * st.alpha)) idx.sigmaP3
  let r4 := scale st.alpsq st.z
  let rP := polyAdd (polySub (polyAdd r1 r2) r3) r4
  let er := evalP rP zeta
  let (v, _s8) := ch s7
  let combined := polyAdd (polyAdd tlow (scale zeta2 tmid)) (scale zeta3 thgh)
  let ops1 := [combined, rP, st.a, st.b, st.c, idx.sigmaP1, idx.sigmaP2]
  match opn ops1 v zeta with
  | .error e => .error e
  | .ok pf1 =>
  match opn [st.z] v (zeta * idx.w) with
  | .error e => .error e
  | .ok pf2 =>
  .ok ⟨st.a, st.b, st.c, st.z, st.beta, st.gamma, st.alpha, zeta, zeta2, zeta3,
    v, st.publicPart, st.t4, st.t, tlow, tmid, thgh, rP, ops1,
    ⟨ea, eb, ec, es1, es2, er, ez⟩,
    st.ca, st.cb, st.cc, st.cz, ctl, ctm, cth, pf1, pf2⟩

/-- ProverProof::create as a full-run function: rounds 1-3, then the division
by the vanishing polynomial with the PolyDivision check of prover.rs lines
145-147, then rounds 4-5. -/
def createFull (cm : List F → Except ProofError G)
    (opn : List (List F) → F → F → Except ProofError G)
    (interp : List F → List F) (ab : S → List G → S) (ch : S → F × S) (s0 : S)
    (wit : List F) (idx : PIndex F) (rng : Nat → F) :
    Except ProofError (Run F G S) :=
  match stageT cm interp ab ch s0 wit idx rng with
  | .error e => .error e
  | .ok st =>
      if polyIsZero (vanDiv st.t idx.n).2 then
        stage3 cm opn ab ch idx st (vanDiv st.t idx.n).1
      else .error .polyDivision

/-- Projection of a full run to the ProverProof record the caller receives. -/
def Run.toProof (run : Run F G S) : PProof F G :=
  ⟨run.ca, run.cb, run.cc, run.cz, run.ctl, run.ctm, run.cth,
   run.pf1, run.pf2, run.evals, run.publicPart⟩

/-- ProverProof::create. -/
def create (cm : List F → Except ProofError G)
    (opn : List (List F) → F → F → Except ProofError G)
    (interp : List F → List F) (ab : S → List G → S) (ch : S → F × S) (s0 : S)
    (wit : List F) (idx : PIndex F) (rng : Nat → F) :
    Except ProofError (PProof F G) :=
  Except.map Run.toProof (createFull cm opn interp ab ch s0 wit idx rng)

/-! Section: Checked (bounds-explicit) witness access for the prover -/

/-- Option-valued map that fails when any element fails, mirroring a loop of
bounds-checked accesses. -/
def mapOpt {α β : Type} (f : α → Option β) : List α → Option (List β)
  | [] => some []
  | a :: t =>
    match f a, mapOpt f t with
    | some b, some bs => some (b :: bs)
    | _, _ => none

/-- Checked round 1 left column. -/
def colAChk (wit : List F) (gates : List PGate) : Option (List F) :=
  mapOpt (fun g => wit[g.l]?) gates

/-- Checked round 1 right column. -/
def colBChk (wit : List F) (gates : List PGate) (k1 : F) : Option (List F) :=
  mapOpt (fun g => (wit[g.r]?).map (fun x => k1 * x)) gates

/-- Checked round 1 output column. -/
def colCChk (wit : List F) (gates : List PGate) (k2 : F) : Option (List F) :=
  mapOpt (fun g => (wit[g.o]?).map (fun x => k2 * x)) gates

/-- Checked round 2 denominators. -/
def denListChk (wit : List F) (gates : List PGate) (s1E s2E s3E : List F)
    (beta gamma : F) (n : Nat) : Option (List F) :=
  mapOpt (fun j =>
    match wit[(gateAt gates j).l]?, wit[(gateAt gates j).r]?,
        wit[(gateAt gates j).o]? with
    | some wl, some wr, some wo =>
        some ((wl + s1E.getD j 0 * beta + gamma) *
              (wr + s2E.getD j 0 * beta + gamma) *
              (wo + s3E.getD j 0 * beta + gamma))
    | _, _, _ => none) (List.range' 1 (n - 1))

/-- Checked round 2 numerators. -/
def numListChk (wit : List F) (gates : List PGate) (sid : List F)
    (beta gamma k1 k2 : F) (n : Nat) : Option (List F) :=
  mapOpt (fun j =>
    match wit[(gateAt gates j).l]?, wit[(gateAt gates j).r]?,
        wit[(gateAt gates j).o]? with
    | some wl, some wr, some wo =>
        some ((wl + sid.getD j 0 * beta + gamma) *
              (wr + sid.getD j 0 * beta * k1 + gamma) *
              (wo + sid.getD j 0 * beta * k2 + gamma))
    | _, _, _ => none) (List.range' 1 (n - 1))

/-- Checked public slice witness[0..public] (the Rust range slice panics when
the bound exceeds the length). -/
def pubSliceChk (wit : List F) (k : Nat) : Option (List F) :=
  if k ≤ wit.length then some (wit.take k) else none

/-! Section: General helper lemmas -/

theorem mapOpt_eq_map {α β : Type} (f : α → Option β) (gf : α → β) (l : List α)
    (h : ∀ a ∈ l, f a = some (gf a)) : mapOpt f l = some (l.map gf) := by
  induction l with
  | nil => rfl
  | cons a t ih =>
    have ha := h a (List.mem_cons_self a t)
    have ht : ∀ x ∈ t, f x = some (gf x) := fun x hx => h x (List.mem_cons_of_mem a hx)
    simp [mapOpt, ha, ih ht]

theorem getElem?_eq_some_getD {α : Type} (l : List α) (i : Nat) (d : α)
    (h : i < l.length) : l[i]? = some (l.getD i d) := by
  induction l generalizing i with
  | nil => simp at h
  | cons a t ih =>
    cases i with
    | zero => simp
    | succ k =>
      simp only [List.getElem?_cons_succ, List.getD_cons_succ]
      exact ih k (by simpa using h)

theorem gateAt_mem (gates : List PGate) (j : Nat) (h : j < gates.length) :
    gateAt gates j ∈ gates := by
  rw [gateAt, List.getD_eq_getElem _ _ h]
  exact List.getElem_mem h

/-! Section: Claim theorems: generic gate -/

/-- Claim C4: for every gate and witness with the gate's wire rows in bounds,
verify_generic returns true exactly when the gate is Generic and the
five-term identity q_L w_l + q_R w_r + q_O w_o + q_M w_l w_r + q_C = 0 holds
in F, the selectors being the gate's coefficients c[0]..c[4]. -/
theorem verify_generic_iff_identity (g : CircuitGate F) (w : List F)
    (hl : g.l.1 < w.length) (hr : g.r.1 < w.length) (ho : g.o.1 < w.length) :
    verify_generic g w = true ↔
      (g.typ = GateType.Generic ∧
       g.c.getD 0 0 * w.getD g.l.1 0 + g.c.getD 1 0 * w.getD g.r.1 0 +
       g.c.getD 2 0 * w.getD g.o.1 0 +
       g.c.getD 3 0 * w.getD g.l.1 0 * w.getD g.r.1 0 + g.c.getD 4 0 = 0) := by
  by_cases hg : g.typ = GateType.Generic
  · simp [verify_generic, qlF, qrF, qoF, qmF, qcF, hg]
  · simp [verify_generic, hg]

/-- Concrete instantiation of the C4 theorem discharging its bounds
hypotheses: the identity gate q_L = 1, q_R = -1 on the witness (2, 2). -/
theorem verify_generic_iff_identity_inst :
    verify_generic (create_generic (0, 0) (1, 0) (1, 0) (1 : ZMod 5) 4 0 0 0) [2, 2] = true ↔
      ((create_generic (0, 0) (1, 0) (1, 0) (1 : ZMod 5) 4 0 0 0).typ = GateType.Generic ∧
       (create_generic (0, 0) (1, 0) (1, 0) (1 : ZMod 5) 4 0 0 0).c.getD 0 0 * ([2, 2] : List (ZMod 5)).getD 0 0 +
       (create_generic (0, 0) (1, 0) (1, 0) (1 : ZMod 5) 4 0 0 0).c.getD 1 0 * ([2, 2] : List (ZMod 5)).getD 1 0 +
       (create_generic (0, 0) (1, 0) (1, 0) (1 : ZMod 5) 4 0 0 0).c.getD 2 0 * ([2, 2] : List (ZMod 5)).getD 1 0 +
       (create_generic (0, 0) (1, 0) (1, 0) (1 : ZMod 5) 4 0 0 0).c.getD 3 0 * ([2, 2] : List (ZMod 5)).getD 0 0 * ([2, 2] : List (ZMod 5)).getD 1 0 +
       (create_generic (0, 0) (1, 0) (1, 0) (1 : ZMod 5) 4 0 0 0).c.getD 4 0 = 0) :=
  verify_generic_iff_identity (create_generic (0, 0) (1, 0) (1, 0) (1 : ZMod 5) 4 0 0 0)
    [2, 2] (by decide) (by decide) (by decide)

/-- Claim C8: each selector accessor returns the positional coefficient
c[0]..c[4] on a Generic gate and zero on any non-Generic gate. -/
theorem selector_accessors (g : CircuitGate F) :
    (g.typ = GateType.Generic →
      qlF g = g.c.getD 0 0 ∧ qrF g = g.c.getD 1 0 ∧ qoF g = g.c.getD 2 0 ∧
      qmF g = g.c.getD 3 0 ∧ qcF g = g.c.getD 4 0) ∧
    (g.typ ≠ GateType.Generic →
      qlF g = 0 ∧ qrF g = 0 ∧ qoF g = 0 ∧ qmF g = 0 ∧ qcF g = 0) := by
  constructor <;> intro hg <;> simp [qlF, qrF, qoF, qmF, qcF, hg]

/-- Concrete instantiation of the C8 theorem on a Generic and on a
non-Generic gate with the same coefficient vector. -/
theorem selector_accessors_inst :
    (qlF (create_generic (0, 0) (0, 0) (0, 0) (1 : ZMod 5) 2 3 4 0) = 1 ∧
     qrF (create_generic (0, 0) (0, 0) (0, 0) (1 : ZMod 5) 2 3 4 0) = 2 ∧
     qoF (create_generic (0, 0) (0, 0) (0, 0) (1 : ZMod 5) 2 3 4 0) = 3 ∧
     qmF (create_generic (0, 0) (0, 0) (0, 0) (1 : ZMod 5) 2 3 4 0) = 4 ∧
     qcF (create_generic (0, 0) (0, 0) (0, 0) (1 : ZMod 5) 2 3 4 0) = 0) ∧
    (qlF (⟨GateType.other, (0, 0), (0, 0), (0, 0), [1, 2, 3, 4, 0]⟩ : CircuitGate (ZMod 5)) = 0 ∧
     qrF (⟨GateType.other, (0, 0), (0, 0), (0, 0), [1, 2, 3, 4, 0]⟩ : CircuitGate (ZMod 5)) = 0 ∧
     qoF (⟨GateType.other, (0, 0), (0, 0), (0, 0), [1, 2, 3, 4, 0]⟩ : CircuitGate (ZMod 5)) = 0 ∧
     qmF (⟨GateType.other, (0, 0), (0, 0), (0, 0), [1, 2, 3, 4, 0]⟩ : CircuitGate (ZMod 5)) = 0 ∧
     qcF (⟨GateType.other, (0, 0), (0, 0), (0, 0), [1, 2, 3, 4, 0]⟩ : CircuitGate (ZMod 5)) = 0) :=
  ⟨(selector_accessors (create_generic (0, 0) (0, 0) (0, 0) (1 : ZMod 5) 2 3 4 0)).1 rfl,
   (selector_accessors (⟨GateType.other, (0, 0), (0, 0), (0, 0), [1, 2, 3, 4, 0]⟩ :
      CircuitGate (ZMod 5))).2 (by decide)⟩

/-! Section: Claim theorem: in-bounds witness access (safety) -/

/-- Claim C10: under the precondition that every gate's wire rows lie
strictly below the witness length, that the domain size does not exceed the
gate count, and that the public count is at most the witness length, every
bounds-checked counterpart of a witness access performed by create (the three
round 1 columns, the round 2 denominator and numerator products, the public
slice) and by verify_generic returns `some` of the unchecked value: the
out-of-bounds branch of each indexing operation is unreachable. -/
theorem witness_access_in_bounds (wit : List F) (gates : List PGate)
    (s1E s2E s3E sid : List F) (beta gamma k1 k2 : F) (n pubN : Nat)
    (g : CircuitGate F)
    (hb : ∀ g' ∈ gates, g'.l < wit.length ∧ g'.r < wit.length ∧ g'.o < wit.length)
    (hn : n ≤ gates.length) (hp : pubN ≤ wit.length)
    (hgl : g.l.1 < wit.length) (hgr : g.r.1 < wit.length) (hgo : g.o.1 < wit.length) :
    colAChk wit gates = some (colA wit gates) ∧
    colBChk wit gates k1 = some (colB wit gates k1) ∧
    colCChk wit gates k2 = some (colC wit gates k2) ∧
    denListChk wit gates s1E s2E s3E beta gamma n =
      some (denList wit gates s1E s2E s3E beta gamma n) ∧
    numListChk wit gates sid beta gamma k1 k2 n =
      some (numList wit gates sid beta gamma k1 k2 n) ∧
    pubSliceChk wit pubN = some (wit.take pubN) ∧
    verify_genericChk g wit = some (verify_generic g wit) := by
  have hAt : ∀ j ∈ List.range' 1 (n - 1),
      (gateAt gates j).l < wit.length ∧ (gateAt gates j).r < wit.length ∧
      (gateAt gates j).o < wit.length := by
    intro j hj
    obtain ⟨hj1, hj2⟩ := List.mem_range'_1.mp hj
    exact hb _ (gateAt_mem gates j (by omega))
  refine ⟨?_, ?_, ?_, ?_, ?_, ?_, ?_⟩
  · exact mapOpt_eq_map _ _ _ (fun g' hg' =>
      getElem?_eq_some_getD wit g'.l 0 (hb g' hg').1)
  · exact mapOpt_eq_map _ _ _ (fun g' hg' => by
      rw [getElem?_eq_some_getD wit g'.r 0 (hb g' hg').2.1]; rfl)
  · exact mapOpt_eq_map _ _ _ (fun g' hg' => by
      rw [getElem?_eq_some_getD wit g'.o 0 (hb g' hg').2.2]; rfl)
  · exact mapOpt_eq_map _ _ _ (fun j hj => by
      rw [getElem?_eq_some_getD wit _ 0 (hAt j hj).1,
        getElem?_eq_some_getD wit _ 0 (hAt j hj).2.1,
        getElem?_eq_some_getD wit _ 0 (hAt j hj).2.2])
  · exact mapOpt_eq_map _ _ _ (fun j hj => by
      rw [getElem?_eq_some_getD wit _ 0 (hAt j hj).1,
        getElem?_eq_some_getD wit _ 0 (hAt j hj).2.1,
        getElem?_eq_some_getD wit _ 0 (hAt j hj).2.2])
  · simp [pubSliceChk, hp]
  · rw [verify_genericChk, getElem?_eq_some_getD wit _ 0 hgl,
      getElem?_eq_some_getD wit _ 0 hgr, getElem?_eq_some_getD wit _ 0 hgo]
    rfl

/-- Concrete instantiation of the C10 theorem discharging every bounds
hypothesis on a two-row trace. -/
theorem witness_access_in_bounds_inst :
    colAChk ([1, 2] : List (ZMod 5)) [⟨0, 0, 0⟩, ⟨1, 1, 1⟩] =
      some (colA [1, 2] [⟨0, 0, 0⟩, ⟨1, 1, 1⟩]) ∧
    colBChk ([1, 2] : List (ZMod 5)) [⟨0, 0, 0⟩, ⟨1, 1, 1⟩] 1 =
      some (colB [1, 2] [⟨0, 0, 0⟩, ⟨1, 1, 1⟩] 1) ∧
    colCChk ([1, 2] : List (ZMod 5)) [⟨0, 0, 0⟩, ⟨1, 1, 1⟩] 1 =
      some (colC [1, 2] [⟨0, 0, 0⟩, ⟨1, 1, 1⟩] 1) ∧
    denListChk ([1, 2] : List (ZMod 5)) [⟨0, 0, 0⟩, ⟨1, 1, 1⟩] [0, 1] [0, 1] [0, 1] 1 0 2 =
      some (denList [1, 2] [⟨0, 0, 0⟩, ⟨1, 1, 1⟩] [0, 1] [0, 1] [0, 1] 1 0 2) ∧
    numListChk ([1, 2] : List (ZMod 5)) [⟨0, 0, 0⟩, ⟨1, 1, 1⟩] [0, 1] 1 0 1 1 2 =
      some (numList [1, 2] [⟨0, 0, 0⟩, ⟨1, 1, 1⟩] [0, 1] 1 0 1 1 2) ∧
    pubSliceChk ([1, 2] : List (ZMod 5)) 1 = some (([1, 2] : List (ZMod 5)).take 1) ∧
    verify_genericChk (create_generic (0, 0) (1, 0) (1, 0) (1 : ZMod 5) 4 0 0 0) [1, 2] =
      some (verify_generic (create_generic (0, 0) (1, 0) (1, 0) (1 : ZMod 5) 4 0 0 0) [1, 2]) :=
  witness_access_in_bounds [1, 2] [⟨0, 0, 0⟩, ⟨1, 1, 1⟩] [0, 1] [0, 1] [0, 1] [0, 1]
    1 0 1 1 2 1 (create_generic (0, 0) (1, 0) (1, 0) (1 : ZMod 5) 4 0 0 0)
    (by decide) (by decide) (by decide) (by decide) (by decide) (by decide)

/-! Section: Claim theorem: the zipped stand-in for z(omega X) in t3 -/

theorem zip_mul_getD (l s : List F) (i : Nat) (h1 : i < l.length)
    (h2 : i < s.length) :
    ((l.zip s).map (fun p => p.1 * p.2)).getD i 0 = l.getD i 0 * s.getD i 0 := by
  induction l generalizing s i with
  | nil => simp at h1
  | cons a t ih =>
    cases s with
    | nil => simp at h2
    | cons b u =>
      cases i with
      | zero => simp
      | succ k =>
        simp only [List.zip_cons_cons, List.map_cons, List.getD_cons_succ]
        exact ih u k (by simpa using h1) (by simpa using h2)

theorem zip_eq_of_take_eq {α β : Type} :
    ∀ (s : List β) (l l' : List α), l.take s.length = l'.take s.length →
      l.zip s = l'.zip s := by
  intro s
  induction s with
  | nil => intro l l' _; simp
  | cons b u ih =>
    intro l l' h
    cases l with
    | nil =>
      cases l' with
      | nil => rfl
      | cons a' t' => simp at h
    | cons a t =>
      cases l' with
      | nil => simp at h
      | cons a' t' =>
        simp only [List.length_cons, List.take_succ_cons, List.cons.injEq] at h
        simp only [List.zip_cons_cons, h.1, ih t t' h.2]

theorem take_succ_drop_one {α : Type} (l : List α) (n : Nat) :
    (l.take (n + 1)).drop 1 = (l.drop 1).take n := by
  cases l <;> simp

/-- Claim C9: the polynomial standing in for z(omega X) inside t3 zips z's
coefficients from index 1 with the sid evaluations: it has exactly
sid.length = n coefficients, coefficient i is z.coeffs[i+1] * sid[i], and it
is invariant under any change of z's coefficients above index n — in
particular the top two blinder coefficients z.coeffs[n+1], z.coeffs[n+2] are
silently dropped. -/
theorem zipShift_structure (zc zcAlt sid : List F) (n i : Nat)
    (hs : sid.length = n) (hz : n + 1 ≤ zc.length) (hz2 : n + 1 ≤ zcAlt.length)
    (ht : zcAlt.take (n + 1) = zc.take (n + 1)) (hi : i < n) :
    (zipShift zc sid).length = n ∧
    (zipShift zc sid).getD i 0 = zc.getD (i + 1) 0 * sid.getD i 0 ∧
    zipShift zcAlt sid = zipShift zc sid := by
  refine ⟨?_, ?_, ?_⟩
  · simp only [zipShift, List.length_map, List.length_zip, List.length_drop, hs]
    omega
  · have hd : (zc.drop 1).getD i 0 = zc.getD (i + 1) 0 := by
      cases zc with
      | nil => simp at hz
      | cons a t => simp
    rw [zipShift, zip_mul_getD (zc.drop 1) sid i (by simp; omega) (by omega), hd]
  · have htake : (zcAlt.drop 1).take sid.length = (zc.drop 1).take sid.length := by
      rw [hs, ← take_succ_drop_one zcAlt n, ← take_succ_drop_one zc n, ht]
    rw [zipShift, zipShift, zip_eq_of_take_eq sid (zcAlt.drop 1) (zc.drop 1) htake]

/-- Concrete instantiation of the C9 theorem: n = 2, a z coefficient vector
of length n + 3 = 5 whose top two coefficients are changed without changing
the zipped polynomial. -/
theorem zipShift_structure_inst :
    (zipShift [1, 2, 3, 4, 0] ([2, 3] : List (ZMod 5))).length = 2 ∧
    (zipShift [1, 2, 3, 4, 0] ([2, 3] : List (ZMod 5))).getD 1 0 =
      ([1, 2, 3, 4, 0] : List (ZMod 5)).getD 2 0 * ([2, 3] : List (ZMod 5)).getD 1 0 ∧
    zipShift [1, 2, 3, 1, 2] ([2, 3] : List (ZMod 5)) =
      zipShift [1, 2, 3, 4, 0] ([2, 3] : List (ZMod 5)) :=
  zipShift_structure [1, 2, 3, 4, 0] [1, 2, 3, 1, 2] [2, 3] 2 1
    (by decide) (by decide) (by decide) (by decide) (by decide)

/-! Section: Structural lemmas about the pipeline -/

theorem except_map_error {α β ε : Type} (f : α → β) (x : Except ε α) (e : ε) :
    Except.map f x = .error e ↔ x = .error e := by
  cases x <;> simp [Except.map]

/-- Every error of rounds 1-3 is the value of a commit call. -/
theorem stageT_error_source {cm : List F → Except ProofError G}
    {interp : List F → List F} {ab : S → List G → S} {ch : S → F × S} {s0 : S}
    {wit : List F} {idx : PIndex F} {rng : Nat → F} {e : ProofError}
    (h : stageT cm interp ab ch s0 wit idx rng = .error e) :
    ∃ p, cm p = .error e := by
  simp only [stageT] at h
  repeat' split at h
  all_goals
    first
    | (injection h with h1; exact h1 ▸ ⟨_, by assumption⟩)
    | simp at h

/-- Every error of rounds 4-5 is the value of a commit or an open call. -/
theorem stage3_error_source {cm : List F → Except ProofError G}
    {opn : List (List F) → F → F → Except ProofError G}
    {ab : S → List G → S} {ch : S → F × S}
    {idx : PIndex F} {st : StA F G S} {tq : List F} {e : ProofError}
    (h : stage3 cm opn ab ch idx st tq = .error e) :
    (∃ p, cm p = .error e) ∨ ∃ ps vv xx, opn ps vv xx = .error e := by
  simp only [stage3] at h
  repeat' split at h
  all_goals
    first
    | (injection h with h1; exact h1 ▸ Or.inl ⟨_, by assumption⟩)
    | (injection h with h1; exact h1 ▸ Or.inr ⟨_, _, _, by assumption⟩)
    | simp at h

/-- A successful createFull factors through rounds 1-3, a zero division
remainder, and rounds 4-5. -/
theorem createFull_ok_inv {cm : List F → Except ProofError G}
    {opn : List (List F) → F → F → Except ProofError G}
    {interp : List F → List F} {ab : S → List G → S} {ch : S → F × S} {s0 : S}
    {wit : List F} {idx : PIndex F} {rng : Nat → F} {run : Run F G S}
    (h : createFull cm opn interp ab ch s0 wit idx rng = .ok run) :
    ∃ st, stageT cm interp ab ch s0 wit idx rng = .ok st ∧
      polyIsZero (vanDiv st.t idx.n).2 = true ∧
      stage3 cm opn ab ch idx st (vanDiv st.t idx.n).1 = .ok run := by
  simp only [createFull] at h
  split at h
  · simp at h
  · rename_i st heq
    split at h
    · rename_i hz
      exact ⟨st, heq, hz, h⟩
    · simp at h

/-- Inversion of a successful stage3: how the returned run's fields relate to
the inputs of rounds 4-5. -/
theorem stage3_ok_inv {cm : List F → Except ProofError G}
    {opn : List (List F) → F → F → Except ProofError G}
    {ab : S → List G → S} {ch : S → F × S}
    {idx : PIndex F} {st : StA F G S} {tq : List F} {run : Run F G S}
    (h : stage3 cm opn ab ch idx st tq = .ok run) :
    run.a = st.a ∧ run.b = st.b ∧ run.c = st.c ∧ run.z = st.z ∧
    run.alpha = st.alpha ∧ run.t4 = st.t4 ∧ run.t = st.t ∧
    run.zeta2 = run.zeta ^ idx.n ∧ run.zeta3 = run.zeta2 ^ idx.n ∧
    run.openPolys1 =
      [polyAdd (polyAdd run.tlow (scale run.zeta2 run.tmid)) (scale run.zeta3 run.thgh),
       run.rPoly, run.a, run.b, run.c, idx.sigmaP1, idx.sigmaP2] ∧
    run.tlow = tq.take idx.n ∧ run.tmid = (tq.drop idx.n).take idx.n ∧
    run.thgh = tq.drop (2 * idx.n) ∧
    run.evals.a = evalP run.a run.zeta ∧
    run.evals.b = evalP run.b run.zeta ∧
    run.evals.c = evalP run.c run.zeta ∧
    run.evals.sigma1 = evalP idx.sigmaP1 run.zeta ∧
    run.evals.sigma2 = evalP idx.sigmaP2 run.zeta ∧
    run.evals.r = evalP run.rPoly run.zeta ∧
    run.evals.z = evalP run.z (run.zeta * idx.w) := by
  simp only [stage3] at h
  repeat' split at h
  all_goals first
  | (injection h with h1; subst h1
     exact ⟨rfl, rfl, rfl, rfl, rfl, rfl, rfl, rfl, rfl, rfl, rfl, rfl, rfl,
       rfl, rfl, rfl, rfl, rfl, rfl, rfl⟩)
  | simp at h

/-- Inversion of successful rounds 1-3: the t4 part is (z - 1) times the
dense polynomial with coefficient vector alpha^2 repeated n times. -/
theorem stageT_ok_t4 {cm : List F → Except ProofError G}
    {interp : List F → List F} {ab : S → List G → S} {ch : S → F × S} {s0 : S}
    {wit : List F} {idx : PIndex F} {rng : Nat → F} {st : StA F G S}
    (h : stageT cm interp ab ch s0 wit idx rng = .ok st) :
    st.t4 = polyMul (polySub st.z [1]) (List.replicate idx.n (st.alpha ^ 2)) := by
  simp only [stageT] at h
  repeat' split at h
  all_goals first
  | (injection h with h1; subst h1; rfl)
  | simp at h

/-! Section: Concrete collaborator instances used for evaluations -/

/-- A commit collaborator that always succeeds. -/
def cmOk : List F → Except ProofError Unit := fun _ => .ok ()

/-- An open collaborator that always succeeds. -/
def opnOk : List (List F) → F → F → Except ProofError Unit := fun _ _ _ => .ok ()

/-- A sponge absorb that ignores its input. -/
def abDrop : List F → List Unit → List F := fun s _ => s

/-- A sponge whose state is the list of challenges still to emit. -/
def chHead : List F → F × List F := fun s => (s.headD 0, s.tail)

/-- The all-zero rng stream. -/
def rngZero : Nat → F := fun _ => 0

/-- A one-row trace with every wire on row 0. -/
def gatesOne : List PGate := [⟨0, 0, 0⟩]

/-- A size-1 index over ZMod 5 with zero selector and sigma data. -/
def idxFive : PIndex (ZMod 5) :=
  ⟨1, 1, 1, 1, 0, gatesOne, [0], [0], [0], [0], [], [], [], [], [], [], [], []⟩

/-- The zero witness for the one-row trace over ZMod 5. -/
def witOne : List (ZMod 5) := [0]

/-- Challenge stream beta = 0, gamma = 0, alpha = 0, zeta = 2, v = 0. -/
def s0Five : List (ZMod 5) := [0, 0, 0, 2, 0]

/-- A size-1 index over ZMod 11 with zero selector and sigma data. -/
def idxEleven : PIndex (ZMod 11) :=
  ⟨1, 1, 1, 1, 0, gatesOne, [0], [0], [0], [0], [], [], [], [], [], [], [], []⟩

/-- The zero witness for the one-row trace over ZMod 11. -/
def witEleven : List (ZMod 11) := [0]

/-- Challenge stream beta = 0, gamma = 0, alpha = 0, zeta = 2, v = 0. -/
def s0Eleven : List (ZMod 11) := [0, 0, 0, 2, 0]

/-! Section: Claim theorems: the prover pipeline -/

/-- Claim C3: under collaborators that never themselves return PolyDivision
(spec section 7 reserves it for the division step), create returns the
PolyDivision error exactly when rounds 1-3 succeed and the division of
t1 + t2 - t3 + t4 by the vanishing polynomial leaves a non-zero remainder;
any other returned error is the unchanged value of a commit or open call.
Atomicity is inherent in the Except-valued embedding: the result is either a
fully populated proof or a single error. -/
theorem create_polyDivision_iff (cm : List F → Except ProofError G)
    (opn : List (List F) → F → F → Except ProofError G)
    (interp : List F → List F) (ab : S → List G → S) (ch : S → F × S) (s0 : S)
    (wit : List F) (idx : PIndex F) (rng : Nat → F)
    (Hc : ∀ p, cm p ≠ .error .polyDivision)
    (Ho : ∀ ps vv xx, opn ps vv xx ≠ .error .polyDivision) :
    (create cm opn interp ab ch s0 wit idx rng = .error .polyDivision ↔
      ∃ st, stageT cm interp ab ch s0 wit idx rng = .ok st ∧
        polyIsZero (vanDiv st.t idx.n).2 = false) ∧
    (∀ e, e ≠ ProofError.polyDivision →
      create cm opn interp ab ch s0 wit idx rng = .error e →
      (∃ p, cm p = .error e) ∨ ∃ ps vv xx, opn ps vv xx = .error e) := by
  constructor
  · rw [create, except_map_error]
    constructor
    · intro h
      simp only [createFull] at h
      split at h
      · rename_i e heq
        injection h with h1
        obtain ⟨p, hp⟩ := stageT_error_source (h1 ▸ heq)
        exact absurd hp (Hc p)
      · rename_i st heq
        split at h
        · rcases stage3_error_source h with ⟨p, hp⟩ | ⟨ps, vv, xx, hp⟩
          · exact absurd hp (Hc p)
          · exact absurd hp (Ho ps vv xx)
        · rename_i hz
          exact ⟨st, heq, by simpa using hz⟩
    · rintro ⟨st, hst, hz⟩
      simp [createFull, hst, hz]
  · intro e hne h
    rw [create, except_map_error] at h
    simp only [createFull] at h
    split at h
    · rename_i e' heq
      injection h with h1
      exact Or.inl (stageT_error_source (h1 ▸ heq))
    · split at h
      · exact stage3_error_source h
      · injection h with h1
        exact absurd h1.symm hne

/-- Concrete instantiation of the C3 theorem with always-succeeding
collaborators, discharging both no-PolyDivision hypotheses. -/
theorem create_polyDivision_iff_inst :
    (create cmOk opnOk id abDrop chHead s0Five witOne idxFive rngZero =
        .error .polyDivision ↔
      ∃ st, stageT cmOk id abDrop chHead s0Five witOne idxFive rngZero = .ok st ∧
        polyIsZero (vanDiv st.t idxFive.n).2 = false) ∧
    (∀ e, e ≠ ProofError.polyDivision →
      create cmOk opnOk id abDrop chHead s0Five witOne idxFive rngZero = .error e →
      (∃ p, cmOk (F := ZMod 5) p = .error e) ∨
        ∃ ps vv xx, opnOk (F := ZMod 5) ps vv xx = .error e) :=
  create_polyDivision_iff cmOk opnOk id abDrop chHead s0Five witOne idxFive rngZero
    (fun _ hp => Except.noConfusion hp) (fun _ _ _ hp => Except.noConfusion hp)

/-- Claim C5: create is deterministic as a two-run property — identical
witness, identical index, identical collaborators and an rng producing the
identical sample stream give identical returned ProverProof values. -/
theorem create_deterministic (cm : List F → Except ProofError G)
    (opn : List (List F) → F → F → Except ProofError G)
    (interp : List F → List F) (ab : S → List G → S) (ch : S → F × S) (s0 : S)
    (wit : List F) (idx : PIndex F) (rng1 rng2 : Nat → F)
    (h : ∀ i, rng1 i = rng2 i) :
    create cm opn interp ab ch s0 wit idx rng1 =
      create cm opn interp ab ch s0 wit idx rng2 := by
  rw [funext h]

/-- Concrete instantiation of the C5 theorem on two extensionally equal rng
streams. -/
theorem create_deterministic_inst :
    create cmOk opnOk id abDrop chHead s0Five witOne idxFive rngZero =
      create cmOk opnOk id abDrop chHead s0Five witOne idxFive
        (fun _ => (0 : ZMod 5)) :=
  create_deterministic cmOk opnOk id abDrop chHead s0Five witOne idxFive
    rngZero (fun _ => (0 : ZMod 5)) (fun _ => rfl)

/-- Claim C6: in every successful run, evals.a, evals.b, evals.c are the wire
polynomials at zeta, evals.sigma1 and evals.sigma2 the first two sigma
polynomials at zeta, evals.r the linearisation polynomial at zeta, and
evals.z is the permutation polynomial at the shifted point zeta * omega —
the only shifted evaluation. -/
theorem create_evals_points (cm : List F → Except ProofError G)
    (opn : List (List F) → F → F → Except ProofError G)
    (interp : List F → List F) (ab : S → List G → S) (ch : S → F × S) (s0 : S)
    (wit : List F) (idx : PIndex F) (rng : Nat → F) (run : Run F G S)
    (h : createFull cm opn interp ab ch s0 wit idx rng = .ok run) :
    run.evals.a = evalP run.a run.zeta ∧
    run.evals.b = evalP run.b run.zeta ∧
    run.evals.c = evalP run.c run.zeta ∧
    run.evals.sigma1 = evalP idx.sigmaP1 run.zeta ∧
    run.evals.sigma2 = evalP idx.sigmaP2 run.zeta ∧
    run.evals.r = evalP run.rPoly run.zeta ∧
    run.evals.z = evalP run.z (run.zeta * idx.w) ∧
    create cm opn interp ab ch s0 wit idx rng = .ok (Run.toProof run) := by
  obtain ⟨st, hst, hz, h3⟩ := createFull_ok_inv h
  obtain ⟨-, -, -, -, -, -, -, -, -, -, -, -, -, ha, hb2, hc2, hs1, hs2, hr2, hz2⟩ :=
    stage3_ok_inv h3
  exact ⟨ha, hb2, hc2, hs1, hs2, hr2, hz2, by unfold create; rw [h]; rfl⟩

/-- Concrete instantiation of the C6 theorem at a successful concrete run. -/
theorem create_evals_points_inst :
    ∃ run, createFull cmOk opnOk id abDrop chHead s0Five witOne idxFive rngZero =
        .ok run ∧
      (run.evals.a = evalP run.a run.zeta ∧
       run.evals.b = evalP run.b run.zeta ∧
       run.evals.c = evalP run.c run.zeta ∧
       run.evals.sigma1 = evalP idxFive.sigmaP1 run.zeta ∧
       run.evals.sigma2 = evalP idxFive.sigmaP2 run.zeta ∧
       run.evals.r = evalP run.rPoly run.zeta ∧
       run.evals.z = evalP run.z (run.zeta * idxFive.w) ∧
       create cmOk opnOk id abDrop chHead s0Five witOne idxFive rngZero =
         .ok (Run.toProof run)) := by
  have hsome : (createFull cmOk opnOk id abDrop chHead s0Five witOne idxFive
      rngZero).toOption.isSome = true := by decide
  rcases hE : createFull cmOk opnOk id abDrop chHead s0Five witOne idxFive rngZero
    with e | run
  · rw [hE] at hsome; simp [Except.toOption] at hsome
  · exact ⟨run, rfl, create_evals_points cmOk opnOk id abDrop chHead s0Five witOne
      idxFive rngZero run hE⟩

/-- Modelled from the spec: the canonical Lagrange basis polynomial at
omega^0, L0(X) = (X^n - 1)/(n(X - 1)) = (1/n)(1 + X + ... + X^(n-1)), named
by the claim as the construction the source does not use. -/
def lagrangeZero (n : Nat) : List F := List.replicate n ((n : F)⁻¹)

/-- Claim C7: in every successful run, t4 is literally (z - 1) times the
dense polynomial whose coefficient vector is alpha^2 repeated n times, and
this differs from the canonical alpha^2-scaled (z - 1) L0(X) (witnessed at
n = 2, alpha = 1, z = 0 over ZMod 5). -/
theorem t4_literal_dense_vector :
    (∀ (G S : Type) (cm : List F → Except ProofError G)
      (opn : List (List F) → F → F → Except ProofError G)
      (interp : List F → List F) (ab : S → List G → S) (ch : S → F × S) (s0 : S)
      (wit : List F) (idx : PIndex F) (rng : Nat → F) (run : Run F G S),
      createFull cm opn interp ab ch s0 wit idx rng = .ok run →
      run.t4 = polyMul (polySub run.z [1]) (List.replicate idx.n (run.alpha ^ 2))) ∧
    polyMul (polySub ([0] : List (ZMod 5)) [1]) (List.replicate 2 ((1 : ZMod 5) ^ 2)) ≠
      scale ((1 : ZMod 5) ^ 2) (polyMul (polySub ([0] : List (ZMod 5)) [1]) (lagrangeZero 2)) := by
  constructor
  · intro G S cm opn interp ab ch s0 wit idx rng run h
    obtain ⟨st, hst, hz, h3⟩ := createFull_ok_inv h
    obtain ⟨-, -, -, hz4, hal, ht4, -⟩ := stage3_ok_inv h3
    rw [ht4, hz4, hal]
    exact stageT_ok_t4 hst
  · have h2 : ((2 : Nat) : ZMod 5)⁻¹ = 3 := inv_eq_of_mul_eq_one_right (by decide)
    simp only [lagrangeZero, h2]
    decide

/-- Concrete instantiation of the first part of the C7 theorem at a
successful concrete run. -/
theorem t4_literal_dense_vector_inst :
    ∃ run, createFull cmOk opnOk id abDrop chHead s0Five witOne idxFive rngZero =
        .ok run ∧
      run.t4 = polyMul (polySub run.z [1])
        (List.replicate idxFive.n (run.alpha ^ 2)) := by
  have hsome : (createFull cmOk opnOk id abDrop chHead s0Five witOne idxFive
      rngZero).toOption.isSome = true := by decide
  rcases hE : createFull cmOk opnOk id abDrop chHead s0Five witOne idxFive rngZero
    with e | run
  · rw [hE] at hsome; simp [Except.toOption] at hsome
  · exact ⟨run, rfl, t4_literal_dense_vector.1 Unit (List (ZMod 5)) cmOk opnOk id
      abDrop chHead s0Five witOne idxFive rngZero run hE⟩

/-! Section: Claim evaluations at failing inputs (code bugs) -/

/-- Claim C1 evaluation: on a concrete two-row instance over ZMod 5 with
num_1 = den_1 = 3, the grand-product vector built by the source is [1, 3] —
the first step multiplies by num_1 only and never divides by den_1 (the
batch-inverted denominators[0] is dead), while the claimed recurrence
z_1 = z_0 * num_1 / den_1 gives 1 * 3 * 3⁻¹ = 1, different from 3. -/
theorem grand_product_skips_first_denominator :
    numList ([0, 1] : List (ZMod 5)) [⟨0, 0, 0⟩, ⟨1, 1, 1⟩] [0, 1] 1 0 1 1 2 = [3] ∧
    denList ([0, 1] : List (ZMod 5)) [⟨0, 0, 0⟩, ⟨1, 1, 1⟩] [0, 1] [0, 1] [0, 1] 1 0 2 = [3] ∧
    permEvals ([0, 1] : List (ZMod 5)) [⟨0, 0, 0⟩, ⟨1, 1, 1⟩] [0, 1] [0, 1] [0, 1] [0, 1]
      1 0 1 1 2 = [1, 3] ∧
    (1 : ZMod 5) * ((3 : ZMod 5) * (3 : ZMod 5)⁻¹) ≠ 3 := by
  have h3 : (3 : ZMod 5)⁻¹ = 2 := inv_eq_of_mul_eq_one_right (by decide)
  refine ⟨by decide, by decide, by decide, ?_⟩
  rw [h3]
  decide

/-- Claim C2 evaluation: in a successful concrete run over ZMod 11 with
n = 1 and zeta = 2, the scalar multiplying t_mid is zeta^n = 2 but the scalar
multiplying t_high is (zeta^n)^n = zeta^(n*n) = 2, not the claimed
zeta^(2n) = 4; the combined polynomial handed to open is
t_low + zeta2 * t_mid + zeta3 * t_high with these scalars. -/
theorem zeta3_is_zeta_pow_n_squared :
    (createFull cmOk opnOk id abDrop chHead s0Eleven witEleven idxEleven
        rngZero).map (fun run => run.zeta) = .ok 2 ∧
    (createFull cmOk opnOk id abDrop chHead s0Eleven witEleven idxEleven
        rngZero).map (fun run => run.zeta2) = .ok 2 ∧
    (createFull cmOk opnOk id abDrop chHead s0Eleven witEleven idxEleven
        rngZero).map (fun run => run.zeta3) = .ok 2 ∧
    ((2 : ZMod 11) ^ (1 * 1) = 2) ∧ ((2 : ZMod 11) ^ (2 * 1) = 4) ∧
    ((2 : ZMod 11) ≠ 4) ∧
    (createFull cmOk opnOk id abDrop chHead s0Eleven witEleven idxEleven
        rngZero).map (fun run => decide (run.openPolys1.headD [] =
          polyAdd (polyAdd run.tlow (scale run.zeta2 run.tmid))
            (scale run.zeta3 run.thgh))) = .ok true := by
  decide

end PlonkSpec
